import Mathlib

/-!
Verification of `scripts/embedded-cli/reapply_overlays.py`.

The script is embedded shallowly: documents are `List Char`, each Python
string primitive used by the script (`startswith`, `in`, `index`,
`replace` with count 1, `replace` without count, `splitlines`, `strip`)
is modelled by an executable Lean function with the same behaviour on the
inputs the script produces, and each reconciler becomes a pure function
from document(s) to a result carrying the changed flag and the written
content, with fatal conditions as an error value.
-/

set_option maxRecDepth 20000

namespace ReapplyOverlays

/-! ### Python string primitives -/

/-- Characters for which Python's `str.isspace` holds (the set stripped by
`str.strip()` with no arguments). -/
def isPySpace (c : Char) : Bool :=
  c == ' ' || c == '\t' || c == '\n' || c == '\r' || c == '\x0b' || c == '\x0c' ||
  c == '\x1c' || c == '\x1d' || c == '\x1e' || c == '\x85' || c == '\xa0' ||
  c == '\u1680' || c == '\u2000' || c == '\u2001' || c == '\u2002' || c == '\u2003' ||
  c == '\u2004' || c == '\u2005' || c == '\u2006' || c == '\u2007' || c == '\u2008' ||
  c == '\u2009' || c == '\u200a' || c == '\u2028' || c == '\u2029' || c == '\u202f' ||
  c == '\u205f' || c == '\u3000'

/-- Line-boundary characters of Python's `str.splitlines` (besides the
combined boundary `"\r\n"`, which is handled separately). -/
def isLineBreakPy (c : Char) : Bool :=
  c == '\n' || c == '\r' || c == '\x0b' || c == '\x0c' ||
  c == '\x1c' || c == '\x1d' || c == '\x1e' || c == '\x85' ||
  c == '\u2028' || c == '\u2029'

/-- Python `str.strip()`: drop `isPySpace` characters from both ends. -/
def stripPy (s : List Char) : List Char :=
  ((s.dropWhile isPySpace).reverse.dropWhile isPySpace).reverse

/-- Python `str.splitlines()`: split at line boundaries, `"\r\n"` counting
as a single boundary; no trailing empty line. -/
def splitlinesPy : List Char → List (List Char)
  | [] => []
  | '\r' :: '\n' :: t => [] :: splitlinesPy t
  | c :: t =>
    if isLineBreakPy c then [] :: splitlinesPy t
    else
      match splitlinesPy t with
      | [] => [[c]]
      | l :: ls => (c :: l) :: ls

/-- Python `str.index` / `str.find` for a substring: index of the first
occurrence of `n` in `s`, or `none`.  (`needle in haystack` is
`(findSub s n).isSome`.) -/
def findSub : List Char → List Char → Option Nat
  | [], n => if n.isEmpty then some 0 else none
  | c :: t, n =>
    if n.isPrefixOf (c :: t) then some 0
    else (findSub t n).map (· + 1)

/-- Python `needle in haystack`. -/
def containsS (s n : List Char) : Bool := (findSub s n).isSome

/-- Python `s.replace(n, r, 1)`: replace the first occurrence of `n` only
(identity when `n` is absent). -/
def replF (s n r : List Char) : List Char :=
  match s with
  | [] => if n.isEmpty then r else []
  | c :: t =>
    if n.isPrefixOf (c :: t) then r ++ (c :: t).drop n.length
    else c :: replF t n r

/-- Fuelled worker for `replA`; `fuel ≥ s.length` makes it total.  The
scan is Python's: left to right, non-overlapping, over the original
string (the replacement text is never rescanned). -/
def replAF : Nat → List Char → List Char → List Char → List Char
  | 0, s, _, _ => s
  | fuel + 1, s, n, r =>
    match s with
    | [] => []
    | c :: t =>
      if n.isPrefixOf (c :: t) && !n.isEmpty then
        r ++ replAF fuel ((c :: t).drop n.length) n r
      else c :: replAF fuel t n r

/-- Python `s.replace(n, r)` without a count, for a non-empty needle `n`
(every needle in the script is a non-empty literal): replace every
occurrence found in one left-to-right scan. -/
def replA (s n r : List Char) : List Char := replAF s.length s n r

/-! ### Constants of the script -/

/-- `README_BANNER` from the script. -/
def bannerL : List Char :=
  ("# embedded-llama overlay\n\nThis fork keeps upstream `llama.cpp` intact and adds an embedded, no-HTTP CLI (`llama-embedded-cli`) so chat, completion, embeddings, rerank, tokenize, etc. can run in-process without starting `llama-server`. The original upstream README begins below for reference.\n\n---\n\n").data

/-- The recognized upstream README prefix, `"# llama.cpp"`. -/
def origMarkerL : List Char := ("# llama.cpp").data

/-- `CMAKE_NEEDLE`. -/
def cmakeNeedleL : List Char := ("add_subdirectory(embedded-cli)").data

/-- `CMAKE_SERVER_LINE`. -/
def serverLineL : List Char := ("add_subdirectory(server)").data

/-- Text inserted after the server line by `ensure_cmake_hook`
(`"\n        " + CMAKE_NEEDLE`). -/
def hookTailL : List Char := ("\n        ").data ++ cmakeNeedleL

/-- Marker showing the CUDA-compiler edit is already applied. -/
def compilerMarkerL : List Char := ("cuda-compiler-12-4").data

/-- Needle of the CUDA-compiler edit. -/
def toolkitNeedleL : List Char := ("sudo apt-get install -y cuda-toolkit-12-4").data

/-- Replacement of the CUDA-compiler edit. -/
def toolkitReplL : List Char := ("sudo apt-get install -y cuda-toolkit-12-4 cuda-compiler-12-4").data

/-- Marker showing the CUDACXX env edit is already applied. -/
def cudacxxMarkerL : List Char := ("CUDACXX: /usr/local/cuda/bin/nvcc").data

/-- Needle of the CUDACXX env edit. -/
def buildNeedleL : List Char :=
  ("      - name: Build\n        id: cmake_build\n        run: |\n          cmake -B build \\\n").data

/-- Replacement of the CUDACXX env edit. -/
def envBlockL : List Char :=
  ("      - name: Build\n        id: cmake_build\n        env:\n          CUDACXX: /usr/local/cuda/bin/nvcc\n          CUDA_HOME: /usr/local/cuda\n          PATH: /usr/local/cuda/bin:${PATH}\n        run: |\n          cmake -B build \\\n").data

/-- Needle of the s390x matrix-entry deletion. -/
def s390xL : List Char :=
  ("          - build: \x27s390x\x27\n            os: ubuntu-24.04-s390x\n").data

/-- Needle of the opencl-adreno backend deletion. -/
def openclL : List Char :=
  ("          - backend: \x27opencl-adreno\x27\n            arch: \x27arm64\x27\n            defines: \x27-G \"Ninja Multi-Config\" -D CMAKE_TOOLCHAIN_FILE=cmake/arm64-windows-llvm.cmake -DCMAKE_PREFIX_PATH=\"$env:RUNNER_TEMP/opencl-arm64-release\" -DGGML_OPENCL=ON -DGGML_OPENCL_USE_ADRENO_KERNELS=ON\x27\n            target: \x27ggml-opencl\x27\n").data

/-- `needs_prefix` in `ensure_release_workflow`: `"    needs:\n"`. -/
def needsMarkerL : List Char := ("    needs:\n").data

/-- The blank-line boundary searched for after the needs marker. -/
def nlnlL : List Char := ("\n\n").data

/-- `REQUIRED_NEEDS`. -/
def requiredNeedsL : List (List Char) :=
  [("ubuntu-22-cuda").data, ("ubuntu-22-cpu").data, ("ubuntu-22-vulkan").data,
   ("windows").data, ("windows-cpu").data, ("windows-cuda").data, ("macOS-arm64").data]

/-- `new_block`: `"".join(f"      - {n}\n" for n in REQUIRED_NEEDS)`. -/
def newBlockL : List Char :=
  (requiredNeedsL.map (fun n => ("      - ").data ++ n ++ ['\n'])).flatten

/-- `DISABLED_JOBS`. -/
def disabledJobsL : List (List Char) :=
  [("windows-sycl:").data, ("windows-hip:").data, ("macOS-x64:").data, ("ios-xcode-build:").data]

/-- Tail appended to a disabled job name: `"\n    if: ${ false }"`. -/
def ifFalseTailL : List Char := ("\n    if: ${ false }").data

/-! ### The reconcilers -/

/-- The fatal conditions of the script (each `SystemExit`, plus the
uncaught `ValueError` from `remainder.index("\n\n")`). -/
inductive OverlayError where
  | readmeUnrecognized (frag : List Char)
  | cmakeServerMissing
  | cmakeInjectFailed
  | envInsertMissing
  | needsBlockMissing
  | blankBoundaryMissing
deriving DecidableEq, Repr

/-- Result of one reconciliation: a value, or a fatal halt. -/
inductive Res (α : Type) where
  | ok (a : α)
  | fatal (e : OverlayError)
deriving DecidableEq, Repr

/-- `ensure_readme_banner`, on the README text: returns the changed flag
and the on-disk content afterwards. -/
def ensureReadmeBanner (d : List Char) : Res (Bool × List Char) :=
  if bannerL.isPrefixOf d then .ok (false, d)
  else if origMarkerL.isPrefixOf d then .ok (true, bannerL ++ d)
  else .fatal (.readmeUnrecognized (d.take 40))

/-- `ensure_cmake_hook`, on the CMakeLists text: returns the changed flag
and the on-disk content afterwards. -/
def ensureCmakeHook (d : List Char) : Res (Bool × List Char) :=
  if containsS d cmakeNeedleL then .ok (false, d)
  else if !containsS d serverLineL then .fatal .cmakeServerMissing
  else
    let newData := replF d serverLineL (serverLineL ++ hookTailL)
    if newData = d then .fatal .cmakeInjectFailed
    else .ok (true, newData)

/-- First edit of `ensure_release_workflow` (lines 70–76): if the
`cuda-compiler-12-4` marker is absent, replace the first occurrence of the
apt-get needle (a silent no-op when the needle is absent) and mark
changed. -/
def cudaInstallStep (d : List Char) : List Char × Bool :=
  if containsS d compilerMarkerL then (d, false)
  else (replF d toolkitNeedleL toolkitReplL, true)

/-- Second edit (lines 78–98): if the CUDACXX marker is absent, require
the Build-step needle and replace its first occurrence by the env block. -/
def cudacxxEnvStep (d : List Char) : Res (List Char × Bool) :=
  if containsS d cudacxxMarkerL then .ok (d, false)
  else if !containsS d buildNeedleL then .fatal .envInsertMissing
  else .ok (replF d buildNeedleL envBlockL, true)

/-- Deletion edits (lines 100–108): remove the s390x matrix entry and the
opencl-adreno backend entry with count-less `str.replace`, flagging a
change when anything was removed.  (When the result equals the input the
script keeps the — equal — result; we return the input for both.) -/
def matrixDeleteStep (d : List Char) : List Char × Bool :=
  let d2 := replA (replA d s390xL []) openclL []
  if d2 = d then (d, false) else (d2, true)

/-- Lines of the current needs block that look like list items
(`line.strip().startswith("- ")`), stripped. -/
def needsLines (block : List Char) : List (List Char) :=
  ((splitlinesPy block).map stripPy).filter (fun l => (("- ").data).isPrefixOf l)

/-- `current_needs`: the identifiers extracted from the needs block. -/
def currentNeeds (block : List Char) : List (List Char) :=
  (needsLines block).map (·.drop 2)

/-- The document produced by the rewrite branch of the needs-block
reconciliation: `data[:start] + new_block + remainder[end_rel:]`, with
`start = p + len(needs_prefix)` and `endRel` relative to `start`. -/
def needsRewrite (d : List Char) (p endRel : Nat) : List Char :=
  d.take (p + needsMarkerL.length) ++ newBlockL ++
    (d.drop (p + needsMarkerL.length)).drop endRel

/-- The needs-block reconciliation (lines 110–123): locate the marker
(fatal if absent), find the blank-line boundary (the uncaught
`ValueError` if absent), compare the extracted identifiers to
`REQUIRED_NEEDS`, and rewrite the block if they differ. -/
def needsStep (d : List Char) : Res (List Char × Bool) :=
  match findSub d needsMarkerL with
  | none => .fatal .needsBlockMissing
  | some p =>
    match findSub (d.drop (p + needsMarkerL.length)) nlnlL with
    | none => .fatal .blankBoundaryMissing
    | some endRel =>
      if currentNeeds ((d.drop (p + needsMarkerL.length)).take endRel) = requiredNeedsL then
        .ok (d, false)
      else
        .ok (needsRewrite d p endRel, true)

/-- One iteration of the disabled-jobs loop (lines 126–130). -/
def disableJobStep (acc : List Char × Bool) (job : List Char) : List Char × Bool :=
  if !containsS acc.1 (job ++ ifFalseTailL) && containsS acc.1 job then
    (replF acc.1 job (job ++ ifFalseTailL), true)
  else acc

/-- The disabled-jobs loop, starting from an unchanged flag. -/
def disableJobsStep (d : List Char) : List Char × Bool :=
  disabledJobsL.foldl disableJobStep (d, false)

/-- Edits of `ensure_release_workflow` before the needs block: the two
insertion edits and the two deletions, with the accumulated changed flag. -/
def preNeedsSteps (d : List Char) : Res (List Char × Bool) :=
  match cudacxxEnvStep (cudaInstallStep d).1 with
  | .fatal e => .fatal e
  | .ok p2 =>
    .ok ((matrixDeleteStep p2.1).1,
         (cudaInstallStep d).2 || p2.2 || (matrixDeleteStep p2.1).2)

/-- `ensure_release_workflow` on the workflow text (the file exists):
returns the changed flag and the final in-memory data. -/
def ensureReleaseWorkflow (d : List Char) : Res (Bool × List Char) :=
  match preNeedsSteps d with
  | .fatal e => .fatal e
  | .ok (d3, c3) =>
    match needsStep d3 with
    | .fatal e => .fatal e
    | .ok (d4, c4) =>
      .ok (c3 || c4 || (disableJobsStep d4).2, (disableJobsStep d4).1)

/-- `ensure_release_workflow` including the existence check and the
conditional write-back: the second component is the on-disk content
afterwards (written only when the changed flag is set). -/
def ensureWorkflowFile : Option (List Char) → Res (Bool × Option (List Char))
  | none => .ok (false, none)
  | some d =>
    match ensureReleaseWorkflow d with
    | .fatal e => .fatal e
    | .ok (c, d5) => .ok (c, some (if c then d5 else d))

/-! ### The run coordinator -/

/-- The three target files as read at the start of a run (the workflow
file is optional). -/
structure RepoDocs where
  readme : List Char
  cmake : List Char
  workflow : Option (List Char)
deriving DecidableEq, Repr

/-- Change labels of `main`. -/
def readmeLabel : String := "README.md (banner)"

def cmakeLabel : String := "tools/CMakeLists.txt (embedded-cli hook)"

def workflowLabel : String := ".github/workflows/release.yml (release defaults)"

/-- `main` (lines 137–149): run the three reconcilers in order against
their files, stopping at the first fatal error; the first component is
the on-disk state afterwards, the second the collected change labels. -/
def runReapply (s : RepoDocs) : RepoDocs × Res (List String) :=
  match ensureReadmeBanner s.readme with
  | .fatal e => (s, .fatal e)
  | .ok (b1, r') =>
    let s1 : RepoDocs := { s with readme := r' }
    match ensureCmakeHook s1.cmake with
    | .fatal e => (s1, .fatal e)
    | .ok (b2, c') =>
      let s2 : RepoDocs := { s1 with cmake := c' }
      match ensureWorkflowFile s2.workflow with
      | .fatal e => (s2, .fatal e)
      | .ok (b3, w') =>
        ({ s2 with workflow := w' },
         .ok ((if b1 then [readmeLabel] else []) ++
              (if b2 then [cmakeLabel] else []) ++
              (if b3 then [workflowLabel] else [])))

/-- The summary line printed at the end of a successful run. -/
def summaryMessage (labels : List String) : String :=
  if labels.isEmpty then "Nothing to reapply; overlays already present."
  else "Reapplied overlays: " ++ String.intercalate ", " labels

/-! ### Concrete documents used as test inputs -/

/-- A README in the unmodified upstream form. -/
def upstreamReadme : List Char := ("# llama.cpp\nsome readme body\n").data

/-- The build-config document after the hook has been inserted. -/
def cmakeHooked : List Char :=
  ("x\nadd_subdirectory(server)\n        add_subdirectory(embedded-cli)\ny\n").data

/-- A workflow document lacking both the `cuda-compiler-12-4` marker and
the apt-get needle, with everything else already in the desired state. -/
def wfMinimal : List Char :=
  cudacxxMarkerL ++ '\n' :: needsMarkerL ++ newBlockL ++ ('\n' :: ['X'])

/-- A workflow document with no needs marker, in which deleting the s390x
entry merges `"    nee"` and `"ds:\n"` into the marker. -/
def wfSplitMarker : List Char :=
  compilerMarkerL ++ '\n' :: cudacxxMarkerL ++ '\n' :: ("    nee").data ++ s390xL ++
    ("ds:\n").data ++ newBlockL ++ ('\n' :: ['X'])

/-- `wfSplitMarker` after the run. -/
def wfSplitMarkerOut : List Char :=
  compilerMarkerL ++ '\n' :: cudacxxMarkerL ++ '\n' :: needsMarkerL ++ newBlockL ++
    ('\n' :: ['X'])

/-- A document with two adjacent copies of the s390x needle. -/
def dupS390x : List Char := ("before\n").data ++ s390xL ++ s390xL ++ ("after").data

/-- A workflow document with a needs marker but no blank-line boundary
after it. -/
def wfNoBoundary : List Char :=
  cudacxxMarkerL ++ '\n' :: needsMarkerL ++ ("      - a\nZ").data

theorem findSub_zero_of_isPrefixOf {n s : List Char} (h : n.isPrefixOf s = true) :
    findSub s n = some 0 := by
  cases s with
  | nil =>
    have hn : n = [] := by
      simpa using List.isPrefixOf_iff_prefix.mp h
    simp [findSub, hn]
  | cons c t => simp [findSub, h]

theorem containsS_of_findSub {s n : List Char} {p : Nat} (h : findSub s n = some p) :
    containsS s n = true := by simp [containsS, h]

theorem findSub_none_iff {s n : List Char} : findSub s n = none ↔ containsS s n = false := by
  cases h : findSub s n <;> simp [containsS, h]

theorem findSub_nil_needle (s : List Char) : findSub s [] = some 0 := by
  cases s <;> simp [findSub, List.isPrefixOf]

theorem containsS_append_mid (A n B : List Char) : containsS (A ++ n ++ B) n = true := by
  rw [List.append_assoc]
  induction A with
  | nil =>
    rcases n with _ | ⟨c, t⟩
    · simp [containsS, findSub_nil_needle]
    · exact containsS_of_findSub (findSub_zero_of_isPrefixOf
        (List.isPrefixOf_iff_prefix.mpr (by simp [List.prefix_append])))
  | cons a A ih =>
    simp only [List.cons_append]
    by_cases hp : (n.isPrefixOf (a :: (A ++ (n ++ B)))) = true
    · exact containsS_of_findSub (findSub_zero_of_isPrefixOf hp)
    · simp only [containsS] at ih ⊢
      rw [findSub, if_neg hp]
      simpa using ih

theorem replF_of_findSub_none {s n r : List Char} (h : findSub s n = none) :
    replF s n r = s := by
  induction s with
  | nil =>
    have hn : ¬ n.isEmpty := by
      intro hcon
      simp [findSub, hcon] at h
    simp [replF, hn]
  | cons c t ih =>
    by_cases hp : (n.isPrefixOf (c :: t)) = true
    · rw [findSub, if_pos hp] at h
      simp at h
    · rw [findSub, if_neg hp] at h
      rw [replF, if_neg hp, ih (by simpa using h)]

theorem replF_split {s n r : List Char} {p : Nat} (h : findSub s n = some p) :
    replF s n r = s.take p ++ r ++ s.drop (p + n.length) := by
  induction s generalizing p with
  | nil =>
    have hn : n.isEmpty := by
      by_contra hcon
      simp [findSub, hcon] at h
    have hp0 : p = 0 := by
      simp [findSub, hn] at h
      omega
    subst hp0
    simp [replF, hn, List.isEmpty_iff.mp hn]
  | cons c t ih =>
    by_cases hp : (n.isPrefixOf (c :: t)) = true
    · rw [findSub, if_pos hp] at h
      obtain rfl : p = 0 := by simpa using h.symm
      rw [replF, if_pos hp]
      simp
    · rw [findSub, if_neg hp] at h
      rcases Option.map_eq_some'.mp h with ⟨q, hq, rfl⟩
      rw [replF, if_neg hp, ih hq]
      simp only [List.take_succ_cons, List.cons_append]
      have : q + 1 + n.length = (q + n.length) + 1 := by omega
      rw [this, List.drop_succ_cons]

theorem replAF_fuel_eq {n r : List Char} :
    ∀ (f g : Nat) (s : List Char), s.length ≤ f → s.length ≤ g →
      replAF f s n r = replAF g s n r := by
  intro f
  induction f with
  | zero =>
    intro g s hf _
    have : s = [] := List.length_eq_zero.mp (Nat.le_zero.mp hf)
    subst this
    cases g <;> simp [replAF]
  | succ f ih =>
    intro g s hf hg
    cases s with
    | nil => cases g <;> simp [replAF]
    | cons c t =>
      obtain ⟨g', rfl⟩ : ∃ g', g = g' + 1 := by
        cases g with
        | zero => simp at hg
        | succ g' => exact ⟨g', rfl⟩
      simp only [replAF]
      by_cases hcond : (n.isPrefixOf (c :: t) && !n.isEmpty) = true
      · rw [if_pos hcond, if_pos hcond]
        have hlen : ((c :: t).drop n.length).length ≤ f ∧ ((c :: t).drop n.length).length ≤ g' := by
          have h1 : 1 ≤ n.length := by
            have hne : (!n.isEmpty) = true := (Bool.and_eq_true_iff.mp hcond).2
            cases n with
            | nil => simp at hne
            | cons _ _ => simp
          constructor <;> (rw [List.length_drop]; simp only [List.length_cons] at hf hg ⊢; omega)
        rw [ih _ _ hlen.1 hlen.2]
      · rw [if_neg hcond, if_neg hcond]
        have h1 : t.length ≤ f := by simp only [List.length_cons] at hf; omega
        have h2 : t.length ≤ g' := by simp only [List.length_cons] at hg; omega
        rw [ih _ _ h1 h2]

theorem replAF_eq_replA {n r : List Char} {f : Nat} {s : List Char} (hf : s.length ≤ f) :
    replAF f s n r = replA s n r :=
  replAF_fuel_eq f s.length s hf (Nat.le_refl _)

theorem replA_of_findSub_none {s n r : List Char} (h : findSub s n = none) :
    replA s n r = s := by
  induction s with
  | nil => simp [replA, replAF]
  | cons c t ih =>
    by_cases hp : (n.isPrefixOf (c :: t)) = true
    · rw [findSub, if_pos hp] at h
      simp at h
    · rw [findSub, if_neg hp] at h
      have hcond : ¬ (n.isPrefixOf (c :: t) && !n.isEmpty) = true := by
        simp [hp]
      show replAF (t.length + 1) (c :: t) n r = c :: t
      rw [replAF, if_neg hcond]
      rw [show replAF t.length t n r = replA t n r from rfl, ih (by simpa using h)]

theorem replA_split {s n r : List Char} {p : Nat} (hn : n ≠ []) (h : findSub s n = some p) :
    replA s n r = s.take p ++ r ++ replA (s.drop (p + n.length)) n r := by
  induction s generalizing p with
  | nil =>
    have : n.isEmpty := by
      by_contra hcon
      simp [findSub, hcon] at h
    exact absurd (List.isEmpty_iff.mp this) hn
  | cons c t ih =>
    have hne : !n.isEmpty := by
      cases n with
      | nil => exact absurd rfl hn
      | cons _ _ => simp
    by_cases hp : (n.isPrefixOf (c :: t)) = true
    · rw [findSub, if_pos hp] at h
      obtain rfl : p = 0 := by simpa using h.symm
      have hcond : (n.isPrefixOf (c :: t) && !n.isEmpty) = true := by
        simp [hp, hne]
      show replAF (t.length + 1) (c :: t) n r = _
      rw [replAF, if_pos hcond]
      have hlen : ((c :: t).drop n.length).length ≤ t.length := by
        have h1 : 1 ≤ n.length := by
          cases n with
          | nil => exact absurd rfl hn
          | cons _ _ => simp
        rw [List.length_drop]
        simp only [List.length_cons]
        omega
      rw [replAF_eq_replA hlen]
      simp
    · rw [findSub, if_neg hp] at h
      rcases Option.map_eq_some'.mp h with ⟨q, hq, rfl⟩
      have hcond : ¬ (n.isPrefixOf (c :: t) && !n.isEmpty) = true := by
        simp [hp]
      show replAF (t.length + 1) (c :: t) n r = _
      rw [replAF, if_neg hcond]
      rw [show replAF t.length t n r = replA t n r from rfl, ih hq]
      simp only [List.take_succ_cons, List.cons_append]
      have : q + 1 + n.length = (q + n.length) + 1 := by omega
      rw [this, List.drop_succ_cons]

/-! ### Lemmas about the individual steps -/

theorem bannerL_isPrefixOf_append (d : List Char) : bannerL.isPrefixOf (bannerL ++ d) = true :=
  List.isPrefixOf_iff_prefix.mpr (List.prefix_append _ _)

theorem ensureReadmeBanner_second {d d₁ : List Char} {b : Bool}
    (h : ensureReadmeBanner d = .ok (b, d₁)) : ensureReadmeBanner d₁ = .ok (false, d₁) := by
  unfold ensureReadmeBanner at h ⊢
  by_cases h1 : bannerL.isPrefixOf d = true
  · rw [if_pos h1] at h
    simp only [Res.ok.injEq, Prod.mk.injEq] at h
    obtain ⟨_, rfl⟩ := h
    rw [if_pos h1]
  · rw [if_neg h1] at h
    by_cases h2 : origMarkerL.isPrefixOf d = true
    · rw [if_pos h2] at h
      simp only [Res.ok.injEq, Prod.mk.injEq] at h
      obtain ⟨_, rfl⟩ := h
      rw [if_pos (bannerL_isPrefixOf_append d)]
    · rw [if_neg h2] at h
      exact absurd h (by simp)

theorem ensureCmakeHook_second {d d₁ : List Char} {b : Bool}
    (h : ensureCmakeHook d = .ok (b, d₁)) : ensureCmakeHook d₁ = .ok (false, d₁) := by
  have hcontains : containsS d₁ cmakeNeedleL = true := by
    unfold ensureCmakeHook at h
    by_cases h1 : containsS d cmakeNeedleL = true
    · rw [if_pos h1] at h
      simp only [Res.ok.injEq, Prod.mk.injEq] at h
      obtain ⟨_, rfl⟩ := h
      exact h1
    · rw [if_neg h1] at h
      by_cases h2 : (!containsS d serverLineL) = true
      · rw [if_pos h2] at h
        exact absurd h (by simp)
      · rw [if_neg h2] at h
        by_cases h3 : replF d serverLineL (serverLineL ++ hookTailL) = d
        · rw [if_pos h3] at h
          exact absurd h (by simp)
        · rw [if_neg h3] at h
          simp only [Res.ok.injEq, Prod.mk.injEq] at h
          obtain ⟨_, rfl⟩ := h
          obtain ⟨p, hp⟩ : ∃ p, findSub d serverLineL = some p := by
            cases hf : findSub d serverLineL with
            | none =>
              rw [findSub_none_iff.mp hf] at h2
              simp at h2
            | some p => exact ⟨p, rfl⟩
          rw [replF_split hp]
          have harr : d.take p ++ (serverLineL ++ hookTailL) ++ d.drop (p + serverLineL.length)
              = (d.take p ++ serverLineL ++ (("\n        ").data)) ++ cmakeNeedleL ++
                d.drop (p + serverLineL.length) := by
            simp [hookTailL, List.append_assoc]
          rw [harr]
          exact containsS_append_mid _ _ _
  unfold ensureCmakeHook
  rw [if_pos hcontains]

/-! ### The needs-block rewrite in detail -/

/-- C6: the Presence Reconciler satisfies the three-way contract: a README
starting with the exact banner is returned unchanged with no write; one
starting with the literal `"# llama.cpp"` becomes exactly the banner
followed by the entire original content and is reported changed; any
other document is fatal, with a 40-character prefix of the offending
content in the error, and the file is not written. -/
theorem c6_presence_contract (d : List Char) :
    (bannerL.isPrefixOf d = true → ensureReadmeBanner d = .ok (false, d))
  ∧ (bannerL.isPrefixOf d = false → origMarkerL.isPrefixOf d = true →
      ensureReadmeBanner d = .ok (true, bannerL ++ d))
  ∧ (bannerL.isPrefixOf d = false → origMarkerL.isPrefixOf d = false →
      ensureReadmeBanner d = .fatal (.readmeUnrecognized (d.take 40))) := by
  refine ⟨?_, ?_, ?_⟩
  · intro h1
    unfold ensureReadmeBanner
    rw [if_pos h1]
  · intro h1 h2
    unfold ensureReadmeBanner
    rw [if_neg (by simp [h1]), if_pos h2]
  · intro h1 h2
    unfold ensureReadmeBanner
    rw [if_neg (by simp [h1]), if_neg (by simp [h2])]

/-- C6 witness: the three cases of the contract at concrete READMEs. -/
theorem c6_presence_contract_witness :
    ensureReadmeBanner (bannerL ++ upstreamReadme) = .ok (false, bannerL ++ upstreamReadme)
  ∧ ensureReadmeBanner upstreamReadme = .ok (true, bannerL ++ upstreamReadme)
  ∧ ensureReadmeBanner (("junk").data)
      = .fatal (.readmeUnrecognized ((("junk").data).take 40)) :=
  ⟨(c6_presence_contract (bannerL ++ upstreamReadme)).1 (by decide),
   (c6_presence_contract upstreamReadme).2.1 (by decide) (by decide),
   (c6_presence_contract (("junk").data)).2.2 (by decide) (by decide)⟩

/-! ### Claim C1 -/

/-- C2 counterexample: on `wfMinimal` (no `cuda-compiler-12-4` marker and
no apt-get needle) every pass, including the second, reports the workflow
reconciler as changed and the run prints the "Reapplied overlays" summary
instead of the "nothing changed" one; since the run leaves all documents
byte-for-byte unchanged, this single equation describes both the first
and the second pass. -/
theorem c2_counterexample :
    runReapply ⟨bannerL ++ upstreamReadme, cmakeHooked, some wfMinimal⟩
      = (⟨bannerL ++ upstreamReadme, cmakeHooked, some wfMinimal⟩, .ok [workflowLabel])
  ∧ summaryMessage [workflowLabel] ≠ "Nothing to reapply; overlays already present." :=
  ⟨by decide, by decide⟩

/-- C2 amended: on a second pass the README and build-config reconcilers
always report unchanged, and the run prints the "nothing changed" summary
exactly when no reconciler reported a change; the workflow reconciler,
however, can report changed again. -/
theorem c2_amended :
    (∀ d b d₁ b' d₂, ensureReadmeBanner d = .ok (b, d₁) →
      ensureReadmeBanner d₁ = .ok (b', d₂) → b' = false)
  ∧ (∀ d b d₁ b' d₂, ensureCmakeHook d = .ok (b, d₁) →
      ensureCmakeHook d₁ = .ok (b', d₂) → b' = false)
  ∧ (∀ labels, summaryMessage labels = "Nothing to reapply; overlays already present."
      ↔ labels = []) := by
  refine ⟨?_, ?_, ?_⟩
  · intro d b d₁ b' d₂ h1 h2
    rw [ensureReadmeBanner_second h1] at h2
    simp only [Res.ok.injEq, Prod.mk.injEq] at h2
    exact h2.1.symm
  · intro d b d₁ b' d₂ h1 h2
    rw [ensureCmakeHook_second h1] at h2
    simp only [Res.ok.injEq, Prod.mk.injEq] at h2
    exact h2.1.symm
  · intro labels
    constructor
    · intro h
      by_contra hne
      unfold summaryMessage at h
      rw [if_neg (by simpa using hne)] at h
      have hdata := congrArg String.data h
      rw [String.data_append] at hdata
      have e1 : ("Reapplied overlays: ").data = 'R' :: ("eapplied overlays: ").data := by
        decide
      have e2 : ("Nothing to reapply; overlays already present.").data
          = 'N' :: ("othing to reapply; overlays already present.").data := by decide
      rw [e1, e2, List.cons_append] at hdata
      injection hdata with hh _
      exact absurd hh (by decide)
    · intro h
      subst h
      rfl

/-- C2 witness: the amended statement applied to concrete documents. -/
theorem c2_amended_witness :
    (false : Bool) = false
  ∧ summaryMessage [] = "Nothing to reapply; overlays already present." :=
  ⟨c2_amended.1 upstreamReadme true (bannerL ++ upstreamReadme) false
      (bannerL ++ upstreamReadme) (by decide) (by decide),
   (c2_amended.2.2 []).mpr rfl⟩

/-! ### Claim C3 -/

/-- C3 counterexample: the cuda-compiler edit (lines 70–76) is a required,
non-deletion edit of the Substring Replacement Reconciler — the first
source location the claim cites — yet on a workflow document lacking both
its "already applied" marker and its needle the run does not fail: it
silently proceeds and even reports the document as changed. -/
theorem c3_counterexample :
    containsS wfMinimal compilerMarkerL = false
  ∧ containsS wfMinimal toolkitNeedleL = false
  ∧ ensureReleaseWorkflow wfMinimal = .ok (true, wfMinimal) :=
  ⟨by decide, by decide, by decide⟩

/-- C3 amended: the cmake-hook edit and the CUDACXX env edit do fail
fatally when their marker and needle are both absent, but the
cuda-compiler edit checks nothing: with marker and needle both absent it
performs a no-op replacement and still marks the document changed. -/
theorem c3_amended :
    (∀ d, containsS d cmakeNeedleL = false → containsS d serverLineL = false →
      ensureCmakeHook d = .fatal .cmakeServerMissing)
  ∧ (∀ d, containsS (cudaInstallStep d).1 cudacxxMarkerL = false →
      containsS (cudaInstallStep d).1 buildNeedleL = false →
      ensureReleaseWorkflow d = .fatal .envInsertMissing)
  ∧ (∀ d, containsS d compilerMarkerL = false → containsS d toolkitNeedleL = false →
      cudaInstallStep d = (d, true)) := by
  refine ⟨?_, ?_, ?_⟩
  · intro d h1 h2
    unfold ensureCmakeHook
    rw [if_neg (by simp [h1]), if_pos (by simp [h2])]
  · intro d h1 h2
    have he : cudacxxEnvStep (cudaInstallStep d).1 = .fatal .envInsertMissing := by
      unfold cudacxxEnvStep
      rw [if_neg (by simp [h1]), if_pos (by simp [h2])]
    have hp : preNeedsSteps d = .fatal .envInsertMissing := by
      unfold preNeedsSteps
      rw [he]
    unfold ensureReleaseWorkflow
    rw [hp]
  · intro d h1 h2
    unfold cudaInstallStep
    rw [if_neg (by simp [h1]), replF_of_findSub_none (findSub_none_iff.mpr h2)]

/-- C3 witness: the amended statement applied to concrete documents. -/
theorem c3_amended_witness :
    ensureCmakeHook (("nope").data) = .fatal .cmakeServerMissing
  ∧ ensureReleaseWorkflow (("empty").data) = .fatal .envInsertMissing
  ∧ cudaInstallStep (("empty").data) = ((("empty").data), true) :=
  ⟨c3_amended.1 (("nope").data) (by decide) (by decide),
   c3_amended.2.1 (("empty").data) (by decide) (by decide),
   c3_amended.2.2 (("empty").data) (by decide) (by decide)⟩

/-! ### Claim C4 -/

/-- C4 counterexample: the s390x deletion is a literal
needle-to-replacement edit of the reconcilers, and on a document holding
the needle twice it removes both copies — the later occurrence is not
left byte-for-byte unchanged (the claimed result, with only the first
occurrence removed, differs from the actual one). -/
theorem c4_counterexample :
    matrixDeleteStep dupS390x = (("before\n").data ++ ("after").data, true)
  ∧ containsS (("before\n").data ++ ("after").data) s390xL = false
  ∧ ("before\n").data ++ ("after").data ≠ ("before\n").data ++ s390xL ++ ("after").data :=
  ⟨by decide, by decide, by decide⟩

theorem replF_append_first {A n r B : List Char}
    (h : findSub (A ++ n ++ B) n = some A.length) :
    replF (A ++ n ++ B) n r = A ++ r ++ B := by
  rw [replF_split h]
  have ht : (A ++ n ++ B).take A.length = A := by
    rw [List.append_assoc]
    exact List.take_left A _
  have hd : (A ++ n ++ B).drop (A.length + n.length) = B := by
    rw [show A.length + n.length = (A ++ n).length from (List.length_append A n).symm]
    exact List.drop_left (A ++ n) B
  rw [ht, hd]

theorem replA_two_occurrences {n : List Char} (hn : n ≠ []) {A M B : List Char}
    (h1 : findSub (A ++ n ++ (M ++ n ++ B)) n = some A.length)
    (h2 : findSub (M ++ n ++ B) n = some M.length)
    (h3 : containsS B n = false) :
    replA (A ++ n ++ (M ++ n ++ B)) n [] = A ++ (M ++ B) := by
  rw [replA_split hn h1]
  have ht : (A ++ n ++ (M ++ n ++ B)).take A.length = A := by
    rw [List.append_assoc]
    exact List.take_left A _
  have hd : (A ++ n ++ (M ++ n ++ B)).drop (A.length + n.length) = M ++ n ++ B := by
    rw [show A.length + n.length = (A ++ n).length from (List.length_append A n).symm]
    rw [List.append_assoc A n]
    rw [← List.append_assoc A n (M ++ n ++ B)]
    exact List.drop_left (A ++ n) (M ++ n ++ B)
  rw [ht, hd, replA_split hn h2]
  have ht2 : (M ++ n ++ B).take M.length = M := by
    rw [List.append_assoc]
    exact List.take_left M _
  have hd2 : (M ++ n ++ B).drop (M.length + n.length) = B := by
    rw [show M.length + n.length = (M ++ n).length from (List.length_append M n).symm]
    rw [List.append_assoc M n]
    rw [← List.append_assoc M n B]
    exact List.drop_left (M ++ n) B
  rw [ht2, hd2, replA_of_findSub_none (findSub_none_iff.mpr h3)]
  simp

/-- C4 amended: every insertion edit — the cmake hook, the cuda-compiler
edit, the CUDACXX env edit and the disabled-jobs markers — replaces the
first occurrence of its needle only, so with the needle at position `|A|`
the suffix `B` survives byte-for-byte; both deletion edits — the s390x
matrix entry and the opencl-adreno backend — remove every occurrence met
in one left-to-right scan: with copies at `|A|` and after `M` both are
removed. -/
theorem c4_amended :
    (∀ A B, findSub (A ++ serverLineL ++ B) serverLineL = some A.length →
      containsS (A ++ serverLineL ++ B) cmakeNeedleL = false →
      ensureCmakeHook (A ++ serverLineL ++ B)
        = .ok (true, A ++ serverLineL ++ hookTailL ++ B))
  ∧ (∀ A B, findSub (A ++ toolkitNeedleL ++ B) toolkitNeedleL = some A.length →
      containsS (A ++ toolkitNeedleL ++ B) compilerMarkerL = false →
      cudaInstallStep (A ++ toolkitNeedleL ++ B) = (A ++ toolkitReplL ++ B, true))
  ∧ (∀ A B, findSub (A ++ buildNeedleL ++ B) buildNeedleL = some A.length →
      containsS (A ++ buildNeedleL ++ B) cudacxxMarkerL = false →
      cudacxxEnvStep (A ++ buildNeedleL ++ B) = .ok (A ++ envBlockL ++ B, true))
  ∧ (∀ A B j c, j ∈ disabledJobsL → findSub (A ++ j ++ B) j = some A.length →
      containsS (A ++ j ++ B) (j ++ ifFalseTailL) = false →
      disableJobStep (A ++ j ++ B, c) j = (A ++ (j ++ ifFalseTailL) ++ B, true))
  ∧ (∀ A M B, findSub (A ++ s390xL ++ (M ++ s390xL ++ B)) s390xL = some A.length →
      findSub (M ++ s390xL ++ B) s390xL = some M.length →
      containsS B s390xL = false →
      replA (A ++ s390xL ++ (M ++ s390xL ++ B)) s390xL [] = A ++ (M ++ B))
  ∧ (∀ A M B, findSub (A ++ openclL ++ (M ++ openclL ++ B)) openclL = some A.length →
      findSub (M ++ openclL ++ B) openclL = some M.length →
      containsS B openclL = false →
      replA (A ++ openclL ++ (M ++ openclL ++ B)) openclL [] = A ++ (M ++ B)) := by
  refine ⟨?_, ?_, ?_, ?_, ?_, ?_⟩
  · intro A B h1 h2
    unfold ensureCmakeHook
    rw [if_neg (by rw [h2]; simp)]
    have hs : containsS (A ++ serverLineL ++ B) serverLineL = true := containsS_of_findSub h1
    rw [if_neg (by rw [hs]; simp)]
    rw [replF_append_first h1]
    have hne : A ++ (serverLineL ++ hookTailL) ++ B ≠ A ++ serverLineL ++ B := by
      intro hcon
      have hlen := congrArg List.length hcon
      have h39 : hookTailL.length = 39 := by decide
      simp [List.length_append, h39] at hlen
    rw [if_neg hne]
    simp [List.append_assoc]
  · intro A B h1 h2
    unfold cudaInstallStep
    rw [if_neg (by rw [h2]; simp), replF_append_first h1]
  · intro A B h1 h2
    unfold cudacxxEnvStep
    have hs : containsS (A ++ buildNeedleL ++ B) buildNeedleL = true := containsS_of_findSub h1
    rw [if_neg (by rw [h2]; simp), if_neg (by rw [hs]; simp), replF_append_first h1]
  · intro A B j c _ h1 h2
    unfold disableJobStep
    have hs : containsS (A ++ j ++ B) j = true := containsS_of_findSub h1
    rw [if_pos (by rw [h2, hs]; simp), replF_append_first h1]
  · intro A M B h1 h2 h3
    exact replA_two_occurrences (by decide) h1 h2 h3
  · intro A M B h1 h2 h3
    exact replA_two_occurrences (by decide) h1 h2 h3

/-- C4 witness: the amended statement applied to concrete documents, one
per edit. -/
theorem c4_amended_witness :
    ensureCmakeHook (("x\n").data ++ serverLineL ++ ("\ny").data)
      = .ok (true, ("x\n").data ++ serverLineL ++ hookTailL ++ ("\ny").data)
  ∧ cudaInstallStep (("x\n").data ++ toolkitNeedleL ++ ("\ny").data)
      = (("x\n").data ++ toolkitReplL ++ ("\ny").data, true)
  ∧ cudacxxEnvStep (("x\n").data ++ buildNeedleL ++ ("y").data)
      = .ok (("x\n").data ++ envBlockL ++ ("y").data, true)
  ∧ disableJobStep (("a\n").data ++ ("windows-sycl:").data ++ ("\nb").data, false)
      (("windows-sycl:").data)
      = (("a\n").data ++ (("windows-sycl:").data ++ ifFalseTailL) ++ ("\nb").data, true)
  ∧ replA (("a").data ++ s390xL ++ (("m").data ++ s390xL ++ ("b").data)) s390xL []
      = ("a").data ++ (("m").data ++ ("b").data)
  ∧ replA (("a").data ++ openclL ++ (("m").data ++ openclL ++ ("b").data)) openclL []
      = ("a").data ++ (("m").data ++ ("b").data) :=
  ⟨c4_amended.1 (("x\n").data) (("\ny").data) (by decide) (by decide),
   c4_amended.2.1 (("x\n").data) (("\ny").data) (by decide) (by decide),
   c4_amended.2.2.1 (("x\n").data) (("y").data) (by decide) (by decide),
   c4_amended.2.2.2.1 (("a\n").data) (("\nb").data) (("windows-sycl:").data) false
     (by decide) (by decide) (by decide),
   c4_amended.2.2.2.2.1 (("a").data) (("m").data) (("b").data)
     (by decide) (by decide) (by decide),
   c4_amended.2.2.2.2.2 (("a").data) (("m").data) (("b").data)
     (by decide) (by decide) (by decide)⟩

/-! ### Claim C5 -/

/-- C5 counterexample: a failing run that leaves a target file modified.
The README is rewritten (banner prepended) before the build-config
reconciler halts the run fatally, so after the failing run the README on
disk is not byte-for-byte what it was. -/
theorem c5_counterexample :
    runReapply ⟨upstreamReadme, ("nope").data, none⟩
      = (⟨bannerL ++ upstreamReadme, ("nope").data, none⟩, .fatal .cmakeServerMissing)
  ∧ bannerL ++ upstreamReadme ≠ upstreamReadme :=
  ⟨by decide, by decide⟩

/-- C5 amended: when a reconciler raises a fatal error the run halts
immediately: the failing reconciler's own file and every later file are
byte-for-byte untouched, and every earlier file holds exactly its own
reconciler's (successful) output — which, unlike the claim, may differ
from its pre-run content. -/
theorem c5_amended (s s' : RepoDocs) (e : OverlayError)
    (h : runReapply s = (s', .fatal e)) :
    (ensureReadmeBanner s.readme = .fatal e ∧ s' = s)
  ∨ (∃ b, ensureReadmeBanner s.readme = .ok (b, s'.readme)
      ∧ ensureCmakeHook s.cmake = .fatal e ∧ s'.cmake = s.cmake ∧ s'.workflow = s.workflow)
  ∨ (∃ b₁ b₂, ensureReadmeBanner s.readme = .ok (b₁, s'.readme)
      ∧ ensureCmakeHook s.cmake = .ok (b₂, s'.cmake)
      ∧ ensureWorkflowFile s.workflow = .fatal e ∧ s'.workflow = s.workflow) := by
  unfold runReapply at h
  cases hr : ensureReadmeBanner s.readme with
  | fatal e' =>
    simp only [hr] at h
    simp only [Prod.mk.injEq, Res.fatal.injEq] at h
    obtain ⟨h1, rfl⟩ := h
    exact Or.inl ⟨rfl, h1.symm⟩
  | ok p =>
    obtain ⟨b1, r'⟩ := p
    simp only [hr] at h
    cases hc : ensureCmakeHook s.cmake with
    | fatal e' =>
      simp only [hc] at h
      simp only [Prod.mk.injEq, Res.fatal.injEq] at h
      obtain ⟨h1, rfl⟩ := h
      subst h1
      exact Or.inr (Or.inl ⟨b1, by simp, rfl, by simp, by simp⟩)
    | ok q =>
      obtain ⟨b2, c'⟩ := q
      simp only [hc] at h
      cases hw : ensureWorkflowFile s.workflow with
      | fatal e' =>
        simp only [hw] at h
        simp only [Prod.mk.injEq, Res.fatal.injEq] at h
        obtain ⟨h1, rfl⟩ := h
        subst h1
        exact Or.inr (Or.inr ⟨b1, b2, by simp, by simp, rfl, by simp⟩)
      | ok w =>
        obtain ⟨b3, w'⟩ := w
        simp only [hw] at h
        simp only [Prod.mk.injEq] at h
        exact absurd h.2 (by simp)

/-- C5 witness: the amended statement at a concrete failing run. -/
theorem c5_amended_witness :
    (ensureReadmeBanner upstreamReadme = .fatal .cmakeServerMissing
      ∧ (⟨bannerL ++ upstreamReadme, ("nope").data, none⟩ : RepoDocs)
          = ⟨upstreamReadme, ("nope").data, none⟩)
  ∨ (∃ b, ensureReadmeBanner upstreamReadme = .ok (b, bannerL ++ upstreamReadme)
      ∧ ensureCmakeHook (("nope").data) = .fatal .cmakeServerMissing
      ∧ ("nope").data = ("nope").data ∧ (none : Option (List Char)) = none)
  ∨ (∃ b₁ b₂, ensureReadmeBanner upstreamReadme = .ok (b₁, bannerL ++ upstreamReadme)
      ∧ ensureCmakeHook (("nope").data) = .ok (b₂, ("nope").data)
      ∧ ensureWorkflowFile none = .fatal .cmakeServerMissing
      ∧ (none : Option (List Char)) = none) :=
  c5_amended ⟨upstreamReadme, ("nope").data, none⟩
    ⟨bannerL ++ upstreamReadme, ("nope").data, none⟩ .cmakeServerMissing (by decide)

/-! ### Claim C7 -/

/-- C8 counterexample: `wfSplitMarker` lacks the literal needs marker, yet
the run does not terminate fatally and the workflow file is written: the
s390x deletion merges `"    nee"` with `"ds:\n"`, creating the marker
before the needs check runs. -/
theorem c8_counterexample :
    containsS wfSplitMarker needsMarkerL = false
  ∧ ensureWorkflowFile (some wfSplitMarker) = .ok (true, some wfSplitMarkerOut)
  ∧ some wfSplitMarkerOut ≠ some wfSplitMarker :=
  ⟨by decide, by decide, by decide⟩

/-- C8 amended: the fatal guarantees hold of the document as it stands
when the Ordered-List Reconciler runs, i.e. after the insertion and
deletion edits: if that document lacks the marker, or has it with no
blank-line boundary afterwards, the workflow reconciliation is fatal; and
whenever the workflow reconciliation is fatal the run leaves the workflow
file unwritten. -/
theorem c8_amended :
    (∀ d d3 c3, preNeedsSteps d = .ok (d3, c3) → findSub d3 needsMarkerL = none →
      ensureReleaseWorkflow d = .fatal .needsBlockMissing)
  ∧ (∀ d d3 c3 p, preNeedsSteps d = .ok (d3, c3) → findSub d3 needsMarkerL = some p →
      findSub (d3.drop (p + needsMarkerL.length)) nlnlL = none →
      ensureReleaseWorkflow d = .fatal .blankBoundaryMissing)
  ∧ (∀ s e, ensureWorkflowFile s.workflow = .fatal e →
      (runReapply s).1.workflow = s.workflow) := by
  refine ⟨?_, ?_, ?_⟩
  · intro d d3 c3 hpre hf
    have hn : needsStep d3 = .fatal .needsBlockMissing := by
      unfold needsStep
      rw [hf]
    unfold ensureReleaseWorkflow
    simp only [hpre, hn]
  · intro d d3 c3 p hpre hf hg
    have hn : needsStep d3 = .fatal .blankBoundaryMissing := by
      unfold needsStep
      simp only [hf, hg]
    unfold ensureReleaseWorkflow
    simp only [hpre, hn]
  · intro s e h
    unfold runReapply
    cases hr : ensureReadmeBanner s.readme with
    | fatal e' => rfl
    | ok p =>
      obtain ⟨b1, r'⟩ := p
      cases hc : ensureCmakeHook s.cmake with
      | fatal e' => simp [hc]
      | ok q =>
        obtain ⟨b2, c'⟩ := q
        cases hw : ensureWorkflowFile s.workflow with
        | fatal e' => simp [hc, hw]
        | ok w => rw [hw] at h; exact absurd h (by simp)

/-- C8 witness: the amended statement at concrete documents. -/
theorem c8_amended_witness :
    ensureReleaseWorkflow cudacxxMarkerL = .fatal .needsBlockMissing
  ∧ ensureReleaseWorkflow wfNoBoundary = .fatal .blankBoundaryMissing
  ∧ (runReapply ⟨bannerL ++ upstreamReadme, cmakeHooked, some cudacxxMarkerL⟩).1.workflow
      = some cudacxxMarkerL :=
  ⟨c8_amended.1 cudacxxMarkerL cudacxxMarkerL true (by decide) (by decide),
   c8_amended.2.1 wfNoBoundary wfNoBoundary true 34 (by decide) (by decide) (by decide),
   c8_amended.2.2 ⟨bannerL ++ upstreamReadme, cmakeHooked, some cudacxxMarkerL⟩
     .needsBlockMissing (by decide)⟩

/-! ### Claim C9 -/

end ReapplyOverlays
